import Mathlib

/-!
Verification of the live-preview tool (src/main.rs): a shallow embedding of
the EditBuffer / Orchestrator (`event_loop`), the CommandRunner
(`child_handler`) and the final print in `main`, with theorems settling the
claims about them.

Modelling conventions:
* Rust `String`s that are only handed around whole are `List Char`;
  the edit buffer `input`, whose byte structure the code indexes into,
  is `List Nat` (its UTF-8 bytes), with `cursor` the `u16` byte index.
* Captured process output (`Vec<u8>`) is `List Nat`; `String::from_utf8`
  is `utf8Decode`, a strict RFC 3629 decoder.
* A Rust panic is `none` / a `crashed` outcome; message sends and draws are
  recorded as explicit events.
-/

namespace LivePreview

/-- A UTF-8 continuation byte, `0x80 ≤ b ≤ 0xBF`. -/
def isCont (b : Nat) : Bool :=
  decide (0x80 ≤ b) && decide (b ≤ 0xBF)

/-- Decode one UTF-8 scalar value from the front of a byte list, returning the
character and the remaining bytes; `none` on invalid input (overlong forms,
surrogates and out-of-range lead bytes rejected, as `String::from_utf8` does). -/
def utf8DecodeOne : List Nat → Option (Char × List Nat)
  | [] => none
  | b1 :: t1 =>
    if b1 < 0x80 then some (Char.ofNat b1, t1)
    else if b1 < 0xC2 then none
    else if b1 ≤ 0xDF then
      match t1 with
      | b2 :: t2 =>
        if isCont b2 then
          some (Char.ofNat ((b1 - 0xC0) * 0x40 + (b2 - 0x80)), t2)
        else none
      | [] => none
    else if b1 ≤ 0xEF then
      match t1 with
      | b2 :: b3 :: t3 =>
        if (if b1 = 0xE0 then decide (0xA0 ≤ b2) && decide (b2 ≤ 0xBF)
            else if b1 = 0xED then decide (0x80 ≤ b2) && decide (b2 ≤ 0x9F)
            else isCont b2) && isCont b3 then
          some (Char.ofNat ((b1 - 0xE0) * 0x1000 + (b2 - 0x80) * 0x40 + (b3 - 0x80)), t3)
        else none
      | _ => none
    else if b1 ≤ 0xF4 then
      match t1 with
      | b2 :: b3 :: b4 :: t4 =>
        if (if b1 = 0xF0 then decide (0x90 ≤ b2) && decide (b2 ≤ 0xBF)
            else if b1 = 0xF4 then decide (0x80 ≤ b2) && decide (b2 ≤ 0x8F)
            else isCont b2) && isCont b3 && isCont b4 then
          some (Char.ofNat ((b1 - 0xF0) * 0x40000 + (b2 - 0x80) * 0x1000 +
                 (b3 - 0x80) * 0x40 + (b4 - 0x80)), t4)
        else none
      | _ => none
    else none

/-- Fuel-driven UTF-8 decoding loop; `utf8DecodeOne` consumes at least one
byte per step, so fuel = length of the list always suffices. -/
def utf8DecodeLoop : Nat → List Nat → Option (List Char)
  | _, [] => some []
  | 0, _ :: _ => none
  | n + 1, b :: t =>
    match utf8DecodeOne (b :: t) with
    | some (c, rest) =>
      match utf8DecodeLoop n rest with
      | some cs => some (c :: cs)
      | none => none
    | none => none

/-- `String::from_utf8`: decode a byte list to text, `none` on invalid UTF-8. -/
def utf8Decode (bs : List Nat) : Option (List Char) :=
  utf8DecodeLoop bs.length bs

/-- The message `child_handler` sends on `output_chan` when a process
completes with captured `stdout`/`stderr` bytes (main.rs lines 171-189):
non-empty stdout is decoded and sent, an undecodable stream or no output at
all both send the empty string, and stderr is consulted only when the stdout
bytes are empty. -/
def childOutputMsg (stdout stderr : List Nat) : List Char :=
  if !stdout.isEmpty then
    match utf8Decode stdout with
    | some s => s
    | none => []
  else if !stderr.isEmpty then
    match utf8Decode stderr with
    | some s => s
    | none => []
  else []

theorem utf8Decode_nil : utf8Decode [] = some [] := rfl

/-- Decoding a non-empty byte list never yields the empty text. -/
theorem utf8Decode_cons_ne_nil (b : Nat) (t : List Nat) (s : List Char)
    (h : utf8Decode (b :: t) = some s) : s ≠ [] := by
  unfold utf8Decode utf8DecodeLoop at h
  simp only [List.length_cons] at h
  cases h1 : utf8DecodeOne (b :: t) with
  | none => rw [h1] at h; exact absurd h (by simp)
  | some pr =>
    obtain ⟨c, rest⟩ := pr
    rw [h1] at h
    simp only at h
    cases h2 : utf8DecodeLoop t.length rest with
    | none => rw [h2] at h; exact absurd h (by simp)
    | some cs =>
      rw [h2] at h
      simp only [Option.some.injEq] at h
      subst h
      exact List.cons_ne_nil _ _

/-- For successfully decoded bytes, empty bytes ↔ empty text. -/
theorem utf8Decode_isEmpty (bs : List Nat) (s : List Char)
    (h : utf8Decode bs = some s) : bs = [] ↔ s = [] := by
  cases bs with
  | nil =>
    rw [utf8Decode_nil] at h
    simp only [Option.some.injEq] at h
    subst h
    simp
  | cons b t =>
    constructor
    · intro hc; exact absurd hc (by simp)
    · intro hc; exact absurd hc (utf8Decode_cons_ne_nil b t s h)

/-- Messages on the command channel, Orchestrator → Runner
(`enum Cmd` in main.rs): `Input(String)` carries the buffer's bytes,
`Done` asks the actor to shut down. -/
inductive Cmd
  | input (s : List Nat)
  | done
deriving DecidableEq

/-- Observable events of one `child_handler` loop iteration: `kill` is the
`kill_on_drop` fired when the `wait_with_output` future owning the child is
dropped, `attempt` is a call to `spawn` with the given program and argument
list, `spawned` is a successful spawn, `reaped` is `wait_with_output`
completing, `emit` is a send on `output_chan`. -/
inductive REvent
  | kill (pid : Nat)
  | attempt (prog : List Nat) (args : List (List Nat))
  | spawned (pid : Nat)
  | reaped (pid : Nat)
  | emit (msg : List Char)
deriving DecidableEq

/-- What wakes the `child_handler` select: the managed process completing
(with exit status `ok` unless `wait_with_output` itself errored, and the
drained output bytes), or the command channel yielding `some cmd` / `none`
(channel closed); `spawnResult` is the outcome the OS gives the `spawn`
call a `Cmd::Input` performs. -/
inductive RunnerInput
  | completion (ok : Bool) (stdout stderr : List Nat)
  | command (cmd : Option Cmd) (spawnResult : Option Nat)

/-- After one iteration the actor either continues with `child_proc = child`,
or has returned (on `Cmd::Done`). -/
inductive RunnerOutcome
  | cont (child : Option Nat)
  | stopped
deriving DecidableEq

/-- `"zsh"` as bytes. -/
def zshBytes : List Nat := [122, 115, 104]

/-- `"-c"` as bytes. -/
def dashC : List Nat := [45, 99]

/-- Dropping the old `wait_with_output` future kills its child
(`kill_on_drop(true)`). -/
def killEvents : Option Nat → List REvent
  | some p => [.kill p]
  | none => []

/-- Event of a successful spawn, none on failure. -/
def spawnedEvents : Option Nat → List REvent
  | some q => [.spawned q]
  | none => []

/-- One iteration of the `child_handler` loop (main.rs lines 169-216).
When the command branch wins the select, tokio first drops the losing
completion future — killing the current child via `kill_on_drop` — and only
then runs the branch body, which on `Cmd::Input` spawns
`zsh -c <input>` and stores the new child (or `None` on spawn failure,
emitting nothing), on `Cmd::Done` returns, and on a closed channel clears
the child. When the completion branch wins, the child has been reaped; on an
`Ok` result the decoded output message is emitted, and `child_proc` is set
to `None`. -/
def childHandlerStep (child : Option Nat) : RunnerInput → RunnerOutcome × List REvent
  | .completion ok stdout stderr =>
    match child with
    | some p =>
      (.cont none, .reaped p :: (if ok then [.emit (childOutputMsg stdout stderr)] else []))
    | none => (.cont none, [])
  | .command cmd spawnResult =>
    match cmd with
    | some (.input s) =>
      (.cont spawnResult,
        killEvents child ++ [.attempt zshBytes [dashC, s]] ++ spawnedEvents spawnResult)
    | some .done => (.stopped, killEvents child)
    | none => (.cont none, killEvents child)

/-- The set (as a list) of live process ids tracked through events: spawns
add, kills and reaps remove. -/
def applyEvent (live : List Nat) : REvent → List Nat
  | .kill p => live.erase p
  | .reaped p => live.erase p
  | .spawned q => live ++ [q]
  | .attempt _ _ => live
  | .emit _ => live

/-- The live set after a whole event list. -/
def applyEvents (evs : List REvent) (live : List Nat) : List Nat :=
  evs.foldl applyEvent live

/-- `liveBounded live evs` holds when the live set stays of size ≤ 1 at
every instant while the events `evs` happen. -/
def liveBounded (live : List Nat) : List REvent → Bool
  | [] => decide (live.length ≤ 1)
  | e :: rest => decide (live.length ≤ 1) && liveBounded (applyEvent live e) rest

/-- The child an outcome continues with (a stopped actor holds none). -/
def outChild : RunnerOutcome → Option Nat
  | .cont c => c
  | .stopped => none

/-- The process ids an `Option pid` child state keeps live. -/
def optList : Option Nat → List Nat
  | some p => [p]
  | none => []

/-- Does an event list contain a send on `output_chan`? -/
def emitsAny (evs : List REvent) : Bool :=
  evs.any fun e => match e with
    | .emit _ => true
    | _ => false

/-- `struct State` of the event loop: `cursor: u16` (a byte index, kept in
`[0, 2^16)`), `input: String` as its UTF-8 bytes, `output: String` as text. -/
structure State where
  cursor : Nat
  input : List Nat
  output : List Char
deriving DecidableEq

/-- `enum Action`: the actions `input_handler` derives from key events. -/
inductive Action
  | done
  | abort
  | cursorLeft
  | cursorRight
  | delete
  | type (c : Char)
deriving DecidableEq

/-- Observable effects of one handled event-loop message: a `cmd_tx.send`
or a `terminal.draw`. -/
inductive OEvent
  | send (c : Cmd)
  | draw
deriving DecidableEq

/-- Outcome of handling one input action: keep looping with a new state,
return from `event_loop` with `Some(output)`/`None`, or panic. -/
inductive StepOutcome
  | cont (s : State)
  | finish (out : Option (List Char))
  | crashed
deriving DecidableEq

/-- `str::is_char_boundary`: true at the very end of the string, and at any
in-range index whose byte is not a UTF-8 continuation byte. -/
def isCharBoundary (s : List Nat) (i : Nat) : Bool :=
  if i = s.length then true
  else if i < s.length then decide (s.getD i 0 < 0x80) || decide (0xC0 ≤ s.getD i 0)
  else false

/-- The UTF-8 encoding of a char, as `String::insert` splices it in. -/
def utf8EncodeChar (c : Char) : List Nat :=
  let n := c.toNat
  if n < 0x80 then [n]
  else if n < 0x800 then [0xC0 + n / 0x40, 0x80 + n % 0x40]
  else if n < 0x10000 then
    [0xE0 + n / 0x1000, 0x80 + (n / 0x40) % 0x40, 0x80 + n % 0x40]
  else
    [0xF0 + n / 0x40000, 0x80 + (n / 0x1000) % 0x40, 0x80 + (n / 0x40) % 0x40, 0x80 + n % 0x40]

/-- `String::insert(i, c)` on the byte representation: panics (`none`)
unless `i` is a char boundary, else splices the encoded char at byte `i`. -/
def stringInsert (s : List Nat) (i : Nat) (c : Char) : Option (List Nat) :=
  if isCharBoundary s i then some (s.take i ++ utf8EncodeChar c ++ s.drop i)
  else none

/-- Byte length of the char starting at a lead byte of a valid string. -/
def charLenAt (b : Nat) : Nat :=
  if b < 0x80 then 1
  else if b < 0xE0 then 2
  else if b < 0xF0 then 3
  else 4

/-- `String::remove(i)` on the byte representation: panics (`none`) unless
`i` is an in-range char boundary, else removes the char starting at byte `i`. -/
def stringRemove (s : List Nat) (i : Nat) : Option (List Nat) :=
  if decide (i < s.length) && isCharBoundary s i then
    some (s.take i ++ s.drop (i + charLenAt (s.getD i 0)))
  else none

/-- `state.input.len() as u16`: the buffer's byte length truncated to `u16`. -/
def byteLen16 (s : List Nat) : Nat :=
  s.length % 65536

/-- Handling one decoded input action in `event_loop` (main.rs lines 68-98):
`Done`/`Abort` send `Cmd::Done` and return (before any draw); cursor moves
are bounds-guarded and only draw; `Delete` and `Type` edit the buffer, send
`Cmd::Input` with the resulting text, and draw — with `none`-panic when
`String::remove`/`String::insert` is called off a char boundary. -/
def handleAction : Action → State → StepOutcome × List OEvent
  | .done, s => (.finish (some s.output), [.send .done])
  | .abort, _ => (.finish none, [.send .done])
  | .cursorLeft, s =>
    (.cont (if 0 < s.cursor then { s with cursor := s.cursor - 1 } else s), [.draw])
  | .cursorRight, s =>
    (.cont (if s.cursor < byteLen16 s.input then { s with cursor := s.cursor + 1 } else s),
      [.draw])
  | .delete, s =>
    if 0 < s.cursor then
      match stringRemove s.input (s.cursor - 1) with
      | some newInput =>
        (.cont { cursor := s.cursor - 1, input := newInput, output := s.output },
          [.send (.input newInput), .draw])
      | none => (.crashed, [])
    else (.cont s, [.draw])
  | .type c, s =>
    match stringInsert s.input s.cursor c with
    | some newInput =>
      (.cont { cursor := (s.cursor + 1) % 65536, input := newInput, output := s.output },
        [.send (.input newInput), .draw])
    | none => (.crashed, [])

/-- Handling one message from `output_rx` (main.rs lines 62-67): on
`Some(output)` store it as the displayed output and draw; a closed channel
does nothing. -/
def handleOutput : Option (List Char) → State → State × List OEvent
  | some m, s => ({ s with output := m }, [.draw])
  | none, s => (s, [])

/-- What `main` prints after the loop (main.rs lines 32-36): the committed
output text verbatim when present and non-empty, else nothing. -/
def mainPrint : Option (List Char) → List Char
  | some o => if o.isEmpty then [] else o
  | none => []

/-- Does an event list contain a `Cmd::Input` send? -/
def sendsRun (evs : List OEvent) : Bool :=
  evs.any fun e => match e with
    | .send (.input _) => true
    | _ => false

/-- Does an event list contain a draw? -/
def drawsAny (evs : List OEvent) : Bool :=
  evs.any fun e => match e with
    | .draw => true
    | _ => false

/-- Claim C1: every `child_handler` step keeps at most one live managed
process at every instant, ends with exactly the processes of its stored
child state live (none orphaned), and whenever a command arrives while a
process is running, the running process is killed as the first event — no
later than the spawn of its replacement. -/
theorem runner_single_process (child : Option Nat) (inp : RunnerInput) :
    liveBounded (optList child) (childHandlerStep child inp).2 = true
    ∧ applyEvents (childHandlerStep child inp).2 (optList child) =
        optList (outChild (childHandlerStep child inp).1)
    ∧ (∀ p cmd sr, child = some p → inp = RunnerInput.command (some cmd) sr →
        ((childHandlerStep child inp).2).head? = some (REvent.kill p)) := by
  cases inp with
  | completion ok stdout stderr =>
    cases child with
    | none =>
      cases ok <;>
        simp [childHandlerStep, liveBounded, applyEvents, applyEvent, optList, outChild]
    | some p =>
      cases ok <;>
        simp [childHandlerStep, liveBounded, applyEvents, applyEvent, optList, outChild]
  | command cmd sr =>
    cases cmd with
    | none =>
      cases child <;>
        simp [childHandlerStep, liveBounded, applyEvents, applyEvent, optList, outChild,
          killEvents]
    | some c =>
      cases c with
      | done =>
        cases child <;>
          simp [childHandlerStep, liveBounded, applyEvents, applyEvent, optList, outChild,
            killEvents]
      | input s =>
        cases child <;> cases sr <;>
          simp [childHandlerStep, liveBounded, applyEvents, applyEvent, optList, outChild,
            killEvents, spawnedEvents]

theorem runner_single_process_witness :
    ((childHandlerStep (some 3) (RunnerInput.command (some (Cmd.input [97])) (some 4))).2).head? =
      some (REvent.kill 3) :=
  (runner_single_process (some 3)
    (RunnerInput.command (some (Cmd.input [97])) (some 4))).2.2 3 (Cmd.input [97]) (some 4) rfl rfl

/-- Claim C2 counterexample: a completed process with undecodable stdout
(the single byte `0xFF`) makes `child_handler` send the empty string — the
very same value it sends for a process with no output at all — so no
distinct `Undecodable` sentinel exists. -/
theorem undecodable_counterexample :
    childOutputMsg [255] [] = ([] : List Char)
    ∧ childOutputMsg [] [] = ([] : List Char) := by
  decide

/-- Claim C2 (amended): for every completed process whose captured stdout
(or, when the stdout bytes are empty, stderr) is not valid text,
`child_handler` emits the empty string — the same value as the Empty
result, not a distinct sentinel — and never crashes (the message function
is total). Note `utf8Decode bs = none` forces `bs ≠ []`, since the empty
byte string decodes to the empty text. -/
theorem undecodable_yields_empty (stdout stderr : List Nat)
    (h : utf8Decode stdout = none ∨ (stdout = [] ∧ utf8Decode stderr = none)) :
    childOutputMsg stdout stderr = [] := by
  rcases h with h1 | ⟨h0, h2⟩
  · have hne : stdout ≠ [] := by
      intro hc
      subst hc
      rw [utf8Decode_nil] at h1
      exact absurd h1 (by simp)
    unfold childOutputMsg
    rw [h1]
    cases stdout with
    | nil => exact absurd rfl hne
    | cons b t => simp
  · subst h0
    cases stderr with
    | nil => rfl
    | cons b t =>
      unfold childOutputMsg
      rw [h2]
      simp

theorem undecodable_yields_empty_witness :
    childOutputMsg [] [255] = [] ∧ childOutputMsg [255] [98] = [] :=
  ⟨undecodable_yields_empty [] [255] (Or.inr ⟨rfl, by decide⟩),
   undecodable_yields_empty [255] [98] (Or.inl (by decide))⟩

/-- Claim C3 counterexample: a `RunText "echo"` whose spawn fails leaves the
runner Idle but emits nothing on the output channel — no "no output" Result
is sent to the Orchestrator. -/
theorem spawn_failure_counterexample :
    (childHandlerStep none (RunnerInput.command (some (Cmd.input [101, 99, 104, 111])) none)).1 =
      RunnerOutcome.cont none
    ∧ emitsAny
        (childHandlerStep none
          (RunnerInput.command (some (Cmd.input [101, 99, 104, 111])) none)).2 = false := by
  decide

/-- Claim C3 (amended): for every `RunText` command whose spawn fails, the
runner transitions to Idle and emits no Result at all; the failure is
recovered locally (the actor keeps looping) and never propagated as a
fault. -/
theorem spawn_failure_recovers (child : Option Nat) (s : List Nat) :
    (childHandlerStep child (RunnerInput.command (some (Cmd.input s)) none)).1 =
      RunnerOutcome.cont none
    ∧ emitsAny (childHandlerStep child (RunnerInput.command (some (Cmd.input s)) none)).2 =
        false := by
  cases child <;> simp [childHandlerStep, killEvents, spawnedEvents, emitsAny]

/-- Claim C4: for every completion whose stdout and stderr decode, the
emitted message follows the precedence: decoded stdout when non-empty, else
decoded stderr when non-empty, else the Empty message. -/
theorem completion_result_order (stdout stderr : List Nat) (so se : List Char)
    (h1 : utf8Decode stdout = some so) (h2 : utf8Decode stderr = some se) :
    childOutputMsg stdout stderr =
      (if so = [] then (if se = [] then [] else se) else so) := by
  cases stdout with
  | nil =>
    rw [utf8Decode_nil] at h1
    simp only [Option.some.injEq] at h1
    subst h1
    cases stderr with
    | nil =>
      rw [utf8Decode_nil] at h2
      simp only [Option.some.injEq] at h2
      subst h2
      simp [childOutputMsg]
    | cons b t =>
      have hne := utf8Decode_cons_ne_nil b t se h2
      simp [childOutputMsg, h2, hne]
  | cons b t =>
    have hne := utf8Decode_cons_ne_nil b t so h1
    simp [childOutputMsg, h1, hne]

theorem completion_result_order_witness :
    utf8Decode [104, 105] = some ['h', 'i']
    ∧ childOutputMsg [104, 105] [] =
        (if (['h', 'i'] : List Char) = [] then (if ([] : List Char) = [] then [] else [])
         else ['h', 'i']) :=
  ⟨by decide, completion_result_order [104, 105] [] ['h', 'i'] [] (by decide) (by decide)⟩

/-- Claim C5 (at the code's failing input): typing `'é'` into an empty
buffer succeeds and leaves `cursor = 1` with the two-byte encoding
`[0xC3, 0xA9]` in the buffer; typing `'a'` next calls `String::insert` at
byte index 1 — inside the encoding of `'é'`, not a char boundary — and the
program panics, so the edit operations are not total. -/
theorem type_multibyte_crash :
    handleAction (Action.type (Char.ofNat 233)) ⟨0, [], []⟩ =
      (StepOutcome.cont ⟨1, [195, 169], []⟩,
        [OEvent.send (Cmd.input [195, 169]), OEvent.draw])
    ∧ (handleAction (Action.type (Char.ofNat 97)) ⟨1, [195, 169], []⟩).1 =
        StepOutcome.crashed := by
  decide

/-- Claim C6: handling `Done` sends `Cmd::Done` and ends the session
returning the currently displayed output; handling `Abort` sends `Cmd::Done`
and ends it returning no output; after the loop, `main` prints the returned
text verbatim exactly when it is present and non-empty, and prints nothing
on Abort. -/
theorem commit_abort_session_output (s : State) (o : List Char) :
    handleAction Action.done s = (StepOutcome.finish (some s.output), [OEvent.send Cmd.done])
    ∧ handleAction Action.abort s = (StepOutcome.finish none, [OEvent.send Cmd.done])
    ∧ mainPrint (some o) = (if o = [] then [] else o)
    ∧ mainPrint none = [] := by
  refine ⟨rfl, rfl, ?_, rfl⟩
  cases o <;> simp [mainPrint]

/-- Claim C7: `CursorLeft` at cursor 0, `CursorRight` at cursor = buffer
byte length (as `u16`), and `Delete` at cursor 0 leave the state unchanged
and only draw; cursor moves and `Done`/`Abort` never send a `Cmd::Input`;
and whenever `Type` or an effective `Delete` completes, the events are
exactly a `Cmd::Input` carrying the resulting buffer text followed by a
draw. -/
theorem noop_and_send_contract (s : State) (c : Char) :
    (s.cursor = 0 → handleAction Action.cursorLeft s = (StepOutcome.cont s, [OEvent.draw]))
    ∧ (s.cursor = byteLen16 s.input →
        handleAction Action.cursorRight s = (StepOutcome.cont s, [OEvent.draw]))
    ∧ (s.cursor = 0 → handleAction Action.delete s = (StepOutcome.cont s, [OEvent.draw]))
    ∧ sendsRun (handleAction Action.cursorLeft s).2 = false
    ∧ sendsRun (handleAction Action.cursorRight s).2 = false
    ∧ sendsRun (handleAction Action.done s).2 = false
    ∧ sendsRun (handleAction Action.abort s).2 = false
    ∧ (∀ st evs, handleAction (Action.type c) s = (StepOutcome.cont st, evs) →
        evs = [OEvent.send (Cmd.input st.input), OEvent.draw])
    ∧ (∀ st evs, 0 < s.cursor →
        handleAction Action.delete s = (StepOutcome.cont st, evs) →
        evs = [OEvent.send (Cmd.input st.input), OEvent.draw]) := by
  refine ⟨?_, ?_, ?_, ?_, ?_, ?_, ?_, ?_, ?_⟩
  · intro h; simp [handleAction, h]
  · intro h; simp [handleAction, h]
  · intro h; simp [handleAction, h]
  · simp [handleAction, sendsRun]
  · simp [handleAction, sendsRun]
  · simp [handleAction, sendsRun]
  · simp [handleAction, sendsRun]
  · intro st evs h
    simp only [handleAction] at h
    cases hin : stringInsert s.input s.cursor c with
    | none => rw [hin] at h; exact absurd h (by simp)
    | some newInput =>
      rw [hin] at h
      simp only [Prod.mk.injEq, StepOutcome.cont.injEq] at h
      obtain ⟨h1, h2⟩ := h
      subst h1
      subst h2
      rfl
  · intro st evs hpos h
    simp only [handleAction, if_pos hpos] at h
    cases hrm : stringRemove s.input (s.cursor - 1) with
    | none => rw [hrm] at h; exact absurd h (by simp)
    | some newInput =>
      rw [hrm] at h
      simp only [Prod.mk.injEq, StepOutcome.cont.injEq] at h
      obtain ⟨h1, h2⟩ := h
      subst h1
      subst h2
      rfl

theorem noop_and_send_contract_witness :
    handleAction Action.cursorLeft ⟨0, [], []⟩ = (StepOutcome.cont ⟨0, [], []⟩, [OEvent.draw])
    ∧ handleAction Action.cursorRight ⟨0, [], []⟩ =
        (StepOutcome.cont ⟨0, [], []⟩, [OEvent.draw])
    ∧ handleAction Action.delete ⟨0, [], []⟩ = (StepOutcome.cont ⟨0, [], []⟩, [OEvent.draw])
    ∧ [OEvent.send (Cmd.input [97]), OEvent.draw] =
        [OEvent.send (Cmd.input (State.input ⟨1, [97], []⟩)), OEvent.draw] :=
  ⟨(noop_and_send_contract ⟨0, [], []⟩ 'a').1 rfl,
   (noop_and_send_contract ⟨0, [], []⟩ 'a').2.1 rfl,
   (noop_and_send_contract ⟨0, [], []⟩ 'a').2.2.1 rfl,
   (noop_and_send_contract ⟨0, [], []⟩ 'a').2.2.2.2.2.2.2.1 ⟨1, [97], []⟩
     [OEvent.send (Cmd.input [97]), OEvent.draw] (by decide)⟩

/-- Claim C8 counterexample: handling `Done` (session end by Commit)
produces no draw event — the code returns from `event_loop` before the
redraw at the end of the input branch, so a redraw is skipped on the path
that ends the session. -/
theorem commit_skips_redraw :
    drawsAny (handleAction Action.done ⟨0, [], [Char.ofNat 104, Char.ofNat 105]⟩).2 = false := by
  decide

/-- Claim C8 (amended): a redraw is the last event after every Result and
after every handled input event that keeps the loop running; on `Done` and
`Abort` the loop returns without a further redraw. -/
theorem redraw_after_handled_events (a : Action) (s st : State) (evs : List OEvent)
    (m : List Char) :
    (handleOutput (some m) s).2 = [OEvent.draw]
    ∧ (handleAction a s = (StepOutcome.cont st, evs) → evs.getLast? = some OEvent.draw) := by
  refine ⟨rfl, ?_⟩
  intro h
  cases a with
  | done => exact absurd h (by simp [handleAction])
  | abort => exact absurd h (by simp [handleAction])
  | cursorLeft =>
    simp only [handleAction, Prod.mk.injEq] at h
    rw [← h.2]
    rfl
  | cursorRight =>
    simp only [handleAction, Prod.mk.injEq] at h
    rw [← h.2]
    rfl
  | delete =>
    by_cases hpos : 0 < s.cursor
    · simp only [handleAction, if_pos hpos] at h
      cases hrm : stringRemove s.input (s.cursor - 1) with
      | none => rw [hrm] at h; exact absurd h (by simp)
      | some newInput =>
        rw [hrm] at h
        simp only [Prod.mk.injEq] at h
        rw [← h.2]
        rfl
    · simp only [handleAction, if_neg hpos, Prod.mk.injEq] at h
      rw [← h.2]
      rfl
  | type c =>
    simp only [handleAction] at h
    cases hin : stringInsert s.input s.cursor c with
    | none => rw [hin] at h; exact absurd h (by simp)
    | some newInput =>
      rw [hin] at h
      simp only [Prod.mk.injEq] at h
      rw [← h.2]
      rfl

theorem redraw_after_handled_events_witness :
    (handleOutput (some [Char.ofNat 104]) ⟨0, [], []⟩).2 = [OEvent.draw]
    ∧ [OEvent.draw].getLast? = some OEvent.draw :=
  ⟨(redraw_after_handled_events Action.cursorLeft ⟨0, [], []⟩ ⟨0, [], []⟩ [OEvent.draw]
      ([Char.ofNat 104])).1,
   (redraw_after_handled_events Action.cursorLeft ⟨0, [], []⟩ ⟨0, [], []⟩ [OEvent.draw]
      ([Char.ofNat 104])).2 (by decide)⟩

/-- Claim C9: handling a Result from the runner changes only the displayed
output — the edit buffer bytes and the cursor are unchanged. -/
theorem result_preserves_buffer (msg : Option (List Char)) (s : State) :
    (handleOutput msg s).1.input = s.input ∧ (handleOutput msg s).1.cursor = s.cursor := by
  cases msg <;> simp [handleOutput]

/-- Claim C10: deleting the last remaining (single-byte) character still
sends `Cmd::Input ""`, and the runner on `Cmd::Input ""` still attempts to
spawn `zsh -c ""` — no short-circuit for the empty buffer on either side. -/
theorem delete_to_empty_still_spawns (s : State) (b : Nat) (child : Option Nat)
    (sr : Option Nat) (hb : b < 0x80) (hc : s.cursor = 1) (hi : s.input = [b]) :
    handleAction Action.delete s =
      (StepOutcome.cont ⟨0, [], s.output⟩, [OEvent.send (Cmd.input []), OEvent.draw])
    ∧ (REvent.attempt zshBytes [dashC, []]) ∈
        (childHandlerStep child (RunnerInput.command (some (Cmd.input [])) sr)).2 := by
  constructor
  · have hb' : ¬ (0xC0 ≤ b) := by omega
    simp [handleAction, stringRemove, isCharBoundary, charLenAt, hb, hb', hc, hi]
  · cases child <;> cases sr <;>
      simp [childHandlerStep, killEvents, spawnedEvents]

theorem delete_to_empty_still_spawns_witness :
    handleAction Action.delete ⟨1, [97], [Char.ofNat 120]⟩ =
      (StepOutcome.cont ⟨0, [], [Char.ofNat 120]⟩,
        [OEvent.send (Cmd.input []), OEvent.draw])
    ∧ (REvent.attempt zshBytes [dashC, []]) ∈
        (childHandlerStep (some 3) (RunnerInput.command (some (Cmd.input [])) none)).2 :=
  delete_to_empty_still_spawns ⟨1, [97], [Char.ofNat 120]⟩ 97 (some 3) none
    (by decide) rfl rfl

end LivePreview
